import Mathlib

/-!
# Verification of the alert extraction / flow correlation / enrichment engine

A shallow embedding, in Lean 4, of the engine implemented in `Ai.py`
(`get_ml_scores_from_zeek` and `parse_snort_and_correlate`), together with
theorems settling the specification's claims about it.

Modelling conventions:

* Python strings are modelled as `List Char`; the Python string methods used by
  the source (`split`, `strip`, `in`, indexing) are re-implemented below with
  Python's semantics.
* The three regular expressions of the source
  (`(\d{1,3}(?:\.\d{1,3}){3})` found with `re.findall`,
  `(\d+:\d+:\d+)` and `(\d{2}/\d{2}-\d{2}:\d{2}:\d{2})` found with
  `re.search`) are deterministic patterns: greedy digit runs followed by a
  fixed literal never need backtracking, so they are implemented as direct
  scanners with the leftmost, non-overlapping semantics of `findall`/`search`.
  (`\d` is modelled as the ASCII digits; the inputs of interest are ASCII.)
* Anomaly scores are stored by the source as the strings produced by f-string
  formatting with `.2f`; every such string denotes an integer number of
  hundredths, so scores are modelled as that integer (`ℤ`, in centi-units):
  the default `"0.42"` is `42`, and a score lies in the real interval `[0, 1]`
  exactly when its centi-unit value lies in `[0, 100]`.  The formatting of a
  model output `x` is `roundCenti x` (round `100 x` to an integer, ties to
  even, as Python's float formatting does; model outputs are exact rationals
  here).  Formatted scores are never the empty string, so the truthiness
  tests of Python's `or` chain on them coincide with presence, which is how
  they are modelled.
* Python dicts keyed by strings are modelled as association lists built in
  insertion order; `dict.get` returns the value of the *last* binding of a key
  (later insertions overwrite), which `dictGet` mirrors by searching the
  reversed list.
* The file system and the pickled model are external to the engine; they are
  modelled by an `Env` record carrying the existence flags, the file contents
  and the (opaque) model's per-row score, exactly the data the source reads.
-/

namespace AiPy

/-! ## Python string primitives -/

/-- The characters stripped by Python's `str.strip()`. -/
def isSpaceChar (c : Char) : Bool :=
  c = ' ' || c = '\t' || c = '\n' || c = '\r' || c = '\x0b' || c = '\x0c'

/-- Python `s.strip()`. -/
def pyStrip (cs : List Char) : List Char :=
  ((cs.dropWhile isSpaceChar).reverse.dropWhile isSpaceChar).reverse

/-- Index of the first occurrence of the (nonempty) separator `sep` in `cs`. -/
def firstOccur (sep : List Char) : List Char → Option Nat
  | [] => none
  | c :: t => if sep.isPrefixOf (c :: t) then some 0 else (firstOccur sep t).map (· + 1)

/-- Python `s.split(sep)` for a nonempty separator, fuelled (the fuel
`cs.length + 1` always suffices since each step consumes at least one
character of `cs`). -/
def pySplitFuel (sep : List Char) : Nat → List Char → List (List Char)
  | 0, cs => [cs]
  | fuel + 1, cs =>
    match firstOccur sep cs with
    | none => [cs]
    | some i => cs.take i :: pySplitFuel sep fuel (cs.drop (i + sep.length))

/-- Python `s.split(sep)` (nonempty `sep`): every occurrence of `sep` splits,
adjacent occurrences produce empty pieces. -/
def pySplit (sep cs : List Char) : List (List Char) :=
  pySplitFuel sep (cs.length + 1) cs

/-- Python `s.replace(pat, "")` for a nonempty `pat` (remove every
non-overlapping occurrence, left to right). -/
def pyRemove (pat cs : List Char) : List Char :=
  (pySplit pat cs).flatten

/-! ## The source's regular expressions -/

/-- Greedily take up to `n` leading ASCII digits. -/
def takeDigitsUpTo : Nat → List Char → List Char × List Char
  | 0, cs => ([], cs)
  | _ + 1, [] => ([], [])
  | n + 1, c :: cs =>
    if c.isDigit then
      let (ds, r) := takeDigitsUpTo n cs
      (c :: ds, r)
    else ([], c :: cs)

/-- One octet of the IPv4 pattern: `\d{1,3}`, greedy. -/
def octet (cs : List Char) : Option (List Char × List Char) :=
  match takeDigitsUpTo 3 cs with
  | ([], _) => none
  | (ds, r) => some (ds, r)

/-- A literal `.` followed by an octet: one `(?:\.\d{1,3})` group. -/
def dotOctet (cs : List Char) : Option (List Char × List Char) :=
  match cs with
  | '.' :: r =>
    match octet r with
    | some (ds, r2) => some ('.' :: ds, r2)
    | none => none
  | _ => none

/-- Match `\d{1,3}(?:\.\d{1,3}){3}` at the head of `cs`; on success return the
matched text and the remainder.  Greedy digit runs followed by a literal `.`
need no backtracking: shortening a run leaves a digit, never a `.`. -/
def matchIPv4 (cs : List Char) : Option (List Char × List Char) := do
  let (d1, r1) ← octet cs
  let (p2, r2) ← dotOctet r1
  let (p3, r3) ← dotOctet r2
  let (p4, r4) ← dotOctet r3
  some (d1 ++ p2 ++ p3 ++ p4, r4)

/-- `re.findall` of the IPv4 pattern: scan left to right, matches do not
overlap (a successful match resumes after its end).  Fuelled; each step
consumes at least one character, so fuel `cs.length` suffices. -/
def findIPsFuel : Nat → List Char → List (List Char)
  | 0, _ => []
  | _ + 1, [] => []
  | fuel + 1, c :: t =>
    match matchIPv4 (c :: t) with
    | some (m, rest) => m :: findIPsFuel fuel rest
    | none => findIPsFuel fuel t

/-- `re.findall(r'(\d{1,3}(?:\.\d{1,3}){3})', b)` — line 93 of `Ai.py`. -/
def findIPs (cs : List Char) : List (List Char) :=
  findIPsFuel cs.length cs

/-- Greedily take one or more leading digits (`\d+`). -/
def takeDigits1 (cs : List Char) : Option (List Char × List Char) :=
  match cs.takeWhile Char.isDigit with
  | [] => none
  | ds => some (ds, cs.dropWhile Char.isDigit)

/-- Match `\d+:\d+:\d+` at the head of `cs`, returning the matched text. -/
def matchSidAt (cs : List Char) : Option (List Char) := do
  let (d1, r1) ← takeDigits1 cs
  match r1 with
  | ':' :: r2 => do
    let (d2, r3) ← takeDigits1 r2
    match r3 with
    | ':' :: r4 => do
      let (d3, _) ← takeDigits1 r4
      some (d1 ++ ':' :: d2 ++ ':' :: d3)
    | _ => none
  | _ => none

/-- `re.search(r'(\d+:\d+:\d+)', b)` — line 97 of `Ai.py`: leftmost match. -/
def searchSid : List Char → Option (List Char)
  | [] => none
  | c :: t =>
    match matchSidAt (c :: t) with
    | some m => some m
    | none => searchSid t

/-- Match the fixed-width timestamp pattern `\d{2}/\d{2}-\d{2}:\d{2}:\d{2}`
at the head of `cs`. -/
def matchTsAt (cs : List Char) : Option (List Char) :=
  match cs with
  | a :: b :: '/' :: c :: d :: '-' :: e :: f :: ':' :: g :: h :: ':' :: i :: j :: _ =>
    if a.isDigit && b.isDigit && c.isDigit && d.isDigit && e.isDigit && f.isDigit
        && g.isDigit && h.isDigit && i.isDigit && j.isDigit then
      some [a, b, '/', c, d, '-', e, f, ':', g, h, ':', i, j]
    else none
  | _ => none

/-- `re.search(r'(\d{2}/\d{2}-\d{2}:\d{2}:\d{2})', b)` — line 105 of `Ai.py`. -/
def searchTs : List Char → Option (List Char)
  | [] => none
  | c :: t =>
    match matchTsAt (c :: t) with
    | some m => some m
    | none => searchTs t

/-! ## `collections.Counter(...).most_common(n)` — line 125 of `Ai.py`

`Counter` iterates the input, counting; its iteration order is the order of
first appearance of each key.  `most_common(n)` is `heapq.nlargest(n, items,
key=count)`, which is documented to be stable: keys of equal count keep their
`items` order, i.e. their order of first appearance.  Stable selection of the
`n` largest is modelled by decorating each distinct key with its position in
the first-appearance list and sorting by (count descending, position
ascending) — a total order, since positions are distinct — then taking `n`. -/

/-- The distinct elements of a list, in order of first appearance
(`Counter`'s iteration order). `seen` accumulates the keys already emitted. -/
def dedupAux [DecidableEq α] (seen : List α) : List α → List α
  | [] => []
  | x :: t => if x ∈ seen then dedupAux seen t else x :: dedupAux (x :: seen) t

/-- The distinct elements of a list, in order of first appearance. -/
def dedupFirst [DecidableEq α] (xs : List α) : List α :=
  dedupAux [] xs

/-- Index of the first occurrence of `x` (the list's length if absent). -/
def firstIdx [DecidableEq α] (x : α) : List α → Nat
  | [] => 0
  | y :: t => if y = x then 0 else firstIdx x t + 1

/-- The order `nlargest` sorts the decorated `(position, (key, count))` items
by: larger count first, and on equal counts the smaller original position
first (stability). -/
def rankRel (a b : Nat × (List Char × Nat)) : Prop :=
  b.2.2 < a.2.2 ∨ (a.2.2 = b.2.2 ∧ a.1 ≤ b.1)

instance : DecidableRel rankRel := fun a b =>
  inferInstanceAs (Decidable (b.2.2 < a.2.2 ∨ (a.2.2 = b.2.2 ∧ a.1 ≤ b.1)))

instance : IsTotal (Nat × (List Char × Nat)) rankRel where
  total a b := by
    rcases Nat.lt_trichotomy a.2.2 b.2.2 with h | h | h
    · exact Or.inr (Or.inl h)
    · rcases Nat.le_total a.1 b.1 with h' | h'
      · exact Or.inl (Or.inr ⟨h, h'⟩)
      · exact Or.inr (Or.inr ⟨h.symm, h'⟩)
    · exact Or.inl (Or.inl h)

instance : IsTrans (Nat × (List Char × Nat)) rankRel where
  trans a b c hab hbc := by
    rcases hab with h1 | ⟨e1, l1⟩
    · rcases hbc with h2 | ⟨e2, _⟩
      · exact Or.inl (h2.trans h1)
      · exact Or.inl (e2 ▸ h1)
    · rcases hbc with h2 | ⟨e2, l2⟩
      · exact Or.inl (e1 ▸ h2)
      · exact Or.inr ⟨e1.trans e2, l1.trans l2⟩

/-- `Counter(xs).most_common(n)`: the `n` most frequent keys with their
counts, most frequent first, ties by first appearance in `xs`. -/
def mostCommon (n : Nat) (xs : List (List Char)) : List (List Char × Nat) :=
  let items := (dedupFirst xs).map fun k => (k, xs.count k)
  ((items.enum.insertionSort rankRel).map Prod.snd).take n

/-! ## Scores

`f"{x:.2f}"` formats a score to two decimals, rounding ties to even; the
resulting string denotes an integer number of hundredths (centi-units),
which is the representation used throughout. -/

/-- The centi-unit value denoted by `f"{q:.2f}"`: `100 q` rounded to an
integer, ties to even.  Computed on the numerator and denominator with `Int`
floor division (`q.den` is positive, so `m / d` is the floor and `m % d` the
nonnegative remainder). -/
def roundCenti (q : ℚ) : ℤ :=
  let m := q.num * 100
  let d := (q.den : ℤ)
  let f := m / d
  let r := m % d
  if 2 * r < d then f
  else if d < 2 * r then f + 1
  else if f % 2 = 0 then f else f + 1

/-! ## Python dicts -/

/-- `d.get(k)` for a dict built by inserting the bindings of `d` in list
order: the *last* binding of `k` wins. -/
def dictGet (d : List (List Char × ℤ)) (k : List Char) : Option ℤ :=
  List.lookup k d.reverse

/-! ## The enriched-alert record

The dict literal built at lines 110–118 of `Ai.py` has exactly the keys
`timestamp`, `sid`, `msg`, `src_ip`, `dst_ip`, `action`, `anomaly_score`;
it is modelled as a structure with those fields. -/

structure EnrichedAlert where
  timestamp : List Char
  sid : List Char
  msg : List Char
  src_ip : List Char
  dst_ip : List Char
  action : List Char
  anomaly_score : ℤ
  deriving DecidableEq, Repr

/-- The exact keys of the alert dict literal (lines 110–118 of `Ai.py`). -/
def alertDictKeys : List String :=
  ["timestamp", "sid", "msg", "src_ip", "dst_ip", "action", "anomaly_score"]

/-! ## The enrichment engine (`parse_snort_and_correlate`) -/

/-- The first two `or` operands of line 108 of `Ai.py`:
`ml_lookup.get(f"{src}-{dst}") or ml_lookup.get(f"{dst}-{src}")`.
(The values are formatted scores, hence never the empty string, so Python's
truthiness test coincides with presence.) -/
def lookupPair (ml : List (List Char × ℤ)) (src dst : List Char) : Option ℤ :=
  (dictGet ml (src ++ '-' :: dst)).orElse fun _ => dictGet ml (dst ++ '-' :: src)

/-- Line 108 of `Ai.py` in full: fall back to the fixed default `"0.42"`
(42 centi-units). -/
def mlScore (ml : List (List Char × ℤ)) (src dst : List Char) : ℤ :=
  (lookupPair ml src dst).getD 42

/-- The body of the `for b in blocks` loop, lines 89–118 of `Ai.py`:
`none` when the block is skipped (`continue`), otherwise the alert record
appended to `enriched_alerts`. -/
def processBlock (ml : List (List Char × ℤ)) (b : List Char) : Option EnrichedAlert :=
  if pyStrip b = [] then none
  else
    let ips := findIPs b
    if ips.length < 2 then none
    else
      let lines := pySplit ['\n'] (pyStrip b)
      let line0 := lines.headD []
      let msg := if line0.contains (']') then pyStrip ((pySplit [']'] line0).getLastD [])
                 else line0
      let src := ips.headD []
      let dst := (ips.drop 1).headD []
      let ts := (searchTs b).getD ("Unknown".data)
      some { timestamp := ts
             sid := (searchSid b).getD ("0".data)
             msg := msg
             src_ip := src
             dst_ip := dst
             action := "ALERT".data
             anomaly_score := mlScore ml src dst }

/-- The data the engine reads from outside: whether each log file exists, the
files' contents, whether the pickled model loaded, and the opaque model's
score for the `i`-th flow row (`predict_proba[:, 1]` when available, else
`predict`). -/
structure Env where
  snortExists : Bool
  snortContent : List Char
  zeekExists : Bool
  zeekContent : List Char
  modelLoaded : Bool
  modelScores : Nat → ℚ

/-! ## `get_ml_scores_from_zeek` (lines 33–72 of `Ai.py`)

The flow log is read with `pd.read_csv(sep='\t', skiprows=skip_n)` where
`skip_n` is the index of the first line starting with `#fields` (0 when there
is none).  `read_csv` skips blank lines and takes the first remaining line as
the header, whose tab-separated tokens give the column names.  The expected
row width is the larger of the header width and the *first data row's* width:

* A row with more fields than that raises `ParserError`, caught by the bare
  `except`, which returns `{}`.  A shorter row is padded with trailing `NaN`
  (rendered `nan` by the f-string).
* When the first data row is wider than the header, `read_csv` does *not*
  raise: the extra leading column(s) become an implicit index, and the header
  names label the remaining positions of every row (the documented
  index-column inference).  `iterrows` then yields the index *label* of each
  row, not its position, and `scores[i]` indexes the 1-D score array with
  that label: with one extra column and an all-integer leading column the
  labels are integers and numpy indexing succeeds for labels in `[-n, n)`
  (negative labels count from the end); a non-integer leading column (float
  or string dtype), an out-of-range label, or a two-or-more-level tuple
  label raises inside the dict comprehension — caught, `{}`.
* The `KeyError` when a nonempty frame lacks an `id.orig_h`/`id.resp_h`
  column is likewise caught.  The column-rename/fill steps only touch
  feature columns, never `id.orig_h`/`id.resp_h`, so they do not affect the
  keys.  Host columns are modelled as the literal row tokens (IP literals
  are not numeric, so pandas keeps them as strings). -/

/-- The lines of the flow log from the header line on, blank lines removed. -/
def zeekRegion (cs : List Char) : List (List Char) :=
  let lns := pySplit ['\n'] cs
  let skipN := (lns.findIdx? fun l => ("#fields".data).isPrefixOf l).getD 0
  (lns.drop skipN).filter (· ≠ [])

/-- The normalized column names: the header line's tab-separated tokens with
every occurrence of `"#fields "` removed and whitespace stripped
(line 46 of `Ai.py`). -/
def zeekCols (cs : List Char) : List (List Char) :=
  (pySplit ['\t'] ((zeekRegion cs).headD [])).map fun c => pyStrip (pyRemove ("#fields ".data) c)

/-- The data rows, as lists of tab-separated tokens. -/
def zeekRows (cs : List Char) : List (List (List Char)) :=
  ((zeekRegion cs).tail).map (pySplit ['\t'])

/-- The value of column `name` in `row` (`nan` when the row is short). -/
def colVal (cols : List (List Char)) (row : List (List Char)) (name : List Char) : List Char :=
  match cols.findIdx? (· = name) with
  | some j => row.getD j ("nan".data)
  | none => "nan".data

/-- The natural number denoted by a digit string. -/
def digitsToNat (ds : List Char) : Nat :=
  ds.foldl (fun a c => a * 10 + (c.toNat - ('0').toNat)) 0

/-- The integer denoted by a token that pandas types as integer: an
optionally signed nonempty digit string.  Anything else makes the column
float- or object-dtyped, whose labels raise when used to index the score
array. -/
def tokenInt? (cs : List Char) : Option ℤ :=
  match cs with
  | '-' :: ds =>
    if ds ≠ [] ∧ ds.all Char.isDigit then some (-(digitsToNat ds : ℤ)) else none
  | '+' :: ds =>
    if ds ≠ [] ∧ ds.all Char.isDigit then some ((digitsToNat ds : ℤ)) else none
  | ds =>
    if ds ≠ [] ∧ ds.all Char.isDigit then some ((digitsToNat ds : ℤ)) else none

/-- numpy indexing of the length-`n` score array by an integer label:
nonnegative labels index directly, negative labels count from the end, and
anything outside `[-n, n)` raises `IndexError`. -/
def labelPos (n : Nat) (i : ℤ) : Option Nat :=
  if 0 ≤ i ∧ i < (n : ℤ) then some i.toNat
  else if -(n : ℤ) ≤ i ∧ i < 0 then some (i + (n : ℤ)).toNat
  else none

/-- The value of column `name` in `row` when the leading field is the
implicit index: header name `j` labels row position `j + 1`. -/
def colValShift (cols : List (List Char)) (row : List (List Char)) (name : List Char) :
    List Char :=
  match cols.findIdx? (· = name) with
  | some j => row.getD (j + 1) ("nan".data)
  | none => "nan".data

/-- The mapping built when pandas inferred a one-column implicit index: the
row labels are the leading tokens; if every label is an in-range integer,
each row contributes the key from its shifted host columns and the score at
the position its label selects, and otherwise the first label access raises
and the blanket `except` yields `{}`. -/
def zeekIndexedScores (e : Env) : List (List Char × ℤ) :=
  let cols := zeekCols e.zeekContent
  let rows := zeekRows e.zeekContent
  let poss := rows.map fun r => (tokenInt? (r.headD ("nan".data))).bind (labelPos rows.length)
  if none ∈ poss then []   -- non-integer dtype or IndexError, caught
  else
    (rows.zip poss).map fun p =>
      (colValShift cols p.1 ("id.orig_h".data) ++ '-' ::
        colValShift cols p.1 ("id.resp_h".data),
       roundCenti (e.modelScores (p.2.getD 0)))

/-- `get_ml_scores_from_zeek`: the host-pair → score bindings, in row order
(`dictGet` gives the resulting dict's lookup). -/
def get_ml_scores_from_zeek (e : Env) : List (List Char × ℤ) :=
  if e.zeekExists = false ∨ e.modelLoaded = false then []
  else
    let region := zeekRegion e.zeekContent
    let cols := zeekCols e.zeekContent
    let rows := zeekRows e.zeekContent
    let w1 := (rows.headD []).length
    if region = [] then []       -- pandas EmptyDataError, caught
    else if rows.any fun r => max cols.length w1 < r.length then []
      -- ParserError: a row wider than the width the header and the first
      -- data row establish; caught
    else if rows ≠ [] ∧ (("id.orig_h".data) ∉ cols ∨ ("id.resp_h".data) ∉ cols) then []
      -- KeyError on the first iterated row, caught
    else if cols.length + 1 = w1 then
      zeekIndexedScores e     -- one implicit index column
    else if cols.length < w1 then []
      -- two or more implicit index columns: the tuple label raises when it
      -- indexes the 1-D score array; caught
    else
      rows.enum.map fun p =>
        (colVal cols p.2 ("id.orig_h".data) ++ '-' :: colVal cols p.2 ("id.resp_h".data),
         roundCenti (e.modelScores p.1))

/-- `parse_snort_and_correlate` (lines 75–126 of `Ai.py`): returns
`(final_alerts, len(enriched_alerts), 0, summary)`. -/
def parse_snort_and_correlate (e : Env) :
    List EnrichedAlert × Nat × Nat × List (List Char × Nat) :=
  let ml := get_ml_scores_from_zeek e
  if e.snortExists = false then ([], 0, 0, [])
  else
    let blocks := pySplit ("[**]".data) e.snortContent
    let enriched := blocks.filterMap (processBlock ml)
    let final := enriched.reverse.take 100
    (final, enriched.length, 0, mostCommon 5 (final.map EnrichedAlert.msg))

/-! ## Helper lemmas -/

/-- A successful `List.lookup` finds a binding of the list. -/
theorem lookup_mem {α β : Type} [BEq α] [LawfulBEq α] {k : α} {v : β} :
    ∀ {l : List (α × β)}, List.lookup k l = some v → (k, v) ∈ l := by
  intro l
  induction l with
  | nil => intro h; simp [List.lookup] at h
  | cons p t ih =>
    intro h
    rcases p with ⟨k', v'⟩
    rw [List.lookup] at h
    by_cases hk : (k == k') = true
    · have hkk : k = k' := eq_of_beq hk
      subst hkk
      simp only [hk] at h
      simp only [Option.some.injEq] at h
      simp [h]
    · simp only [Bool.not_eq_true] at hk
      simp only [hk] at h
      exact List.mem_cons_of_mem _ (ih h)

/-- A successful `dictGet` returns the value of some binding. -/
theorem dictGet_mem {d : List (List Char × ℤ)} {k : List Char} {v : ℤ}
    (h : dictGet d k = some v) : (k, v) ∈ d := by
  have := lookup_mem (show List.lookup k d.reverse = some v from h)
  exact (List.mem_reverse).mp this

/-- When the forward key is bound, `lookupPair` returns its value — whatever
the reverse key holds. -/
theorem lookupPair_some_left {ml : List (List Char × ℤ)} {src dst : List Char} {v : ℤ}
    (h : dictGet ml (src ++ '-' :: dst) = some v) : lookupPair ml src dst = some v := by
  simp [lookupPair, h, Option.orElse]

/-- When the forward key is unbound, `lookupPair` is the reverse lookup. -/
theorem lookupPair_left_none {ml : List (List Char × ℤ)} {src dst : List Char}
    (h : dictGet ml (src ++ '-' :: dst) = none) :
    lookupPair ml src dst = dictGet ml (dst ++ '-' :: src) := by
  simp [lookupPair, h, Option.orElse]

/-- The fields of the record built by a successful `processBlock`. -/
theorem processBlock_some {ml : List (List Char × ℤ)} {b : List Char} {a : EnrichedAlert}
    (h : processBlock ml b = some a) :
    a.action = "ALERT".data ∧
    a.src_ip = (findIPs b).headD [] ∧
    a.dst_ip = ((findIPs b).drop 1).headD [] ∧
    a.timestamp = (searchTs b).getD ("Unknown".data) ∧
    a.sid = (searchSid b).getD ("0".data) ∧
    a.anomaly_score = mlScore ml ((findIPs b).headD []) (((findIPs b).drop 1).headD []) := by
  by_cases h1 : pyStrip b = []
  · unfold processBlock at h
    rw [if_pos h1] at h
    exact Option.noConfusion h
  · by_cases h2 : (findIPs b).length < 2
    · unfold processBlock at h
      rw [if_neg h1] at h
      simp only [if_pos h2] at h
      exact Option.noConfusion h
    · unfold processBlock at h
      rw [if_neg h1] at h
      simp only [if_neg h2, Option.some.injEq] at h
      subst h
      exact ⟨rfl, rfl, rfl, rfl, rfl, rfl⟩

/-- The score of every emitted alert is the `mlScore` of its own host pair. -/
theorem processBlock_score {ml : List (List Char × ℤ)} {b : List Char} {a : EnrichedAlert}
    (h : processBlock ml b = some a) :
    a.anomaly_score = mlScore ml a.src_ip a.dst_ip := by
  obtain ⟨-, h1, h2, -, -, h3⟩ := processBlock_some h
  rw [h1, h2, h3]

/-- If the stripped block is empty, every character of the block is
whitespace. -/
theorem forall_space_of_pyStrip_nil {cs : List Char} (h : pyStrip cs = []) :
    ∀ c ∈ cs, isSpaceChar c = true := by
  unfold pyStrip at h
  rw [List.reverse_eq_nil_iff, List.dropWhile_eq_nil_iff] at h
  intro c hc
  rcases List.mem_append.mp
      ((List.takeWhile_append_dropWhile (p := isSpaceChar) (l := cs)) ▸ hc) with h1 | h1
  · exact List.mem_takeWhile_imp h1
  · exact h c (List.mem_reverse.mpr h1)

/-- Whitespace is not a digit. -/
theorem not_digit_of_space {c : Char} (h : isSpaceChar c = true) : c.isDigit = false := by
  simp only [isSpaceChar, Bool.or_eq_true, decide_eq_true_eq] at h
  rcases h with ((((h | h) | h) | h) | h) | h <;> subst h <;> decide

/-- The IPv4 pattern cannot match at a non-digit character. -/
theorem matchIPv4_not_digit {c : Char} {t : List Char} (h : c.isDigit = false) :
    matchIPv4 (c :: t) = none := by
  have h3 : (3 : Nat) = 2 + 1 := rfl
  simp [matchIPv4, octet, h3, takeDigitsUpTo, h]

/-- A string of whitespace contains no IPv4 literal. -/
theorem findIPsFuel_nil_of_space {fuel : Nat} {cs : List Char}
    (h : ∀ c ∈ cs, isSpaceChar c = true) : findIPsFuel fuel cs = [] := by
  induction fuel generalizing cs with
  | zero => rfl
  | succ fuel ih =>
    cases cs with
    | nil => rfl
    | cons c t =>
      have hd : c.isDigit = false := not_digit_of_space (h c (List.mem_cons_self c t))
      rw [findIPsFuel, matchIPv4_not_digit hd]
      exact ih fun x hx => h x (List.mem_cons_of_mem c hx)

/-- A block whose strip is empty yields no IPv4 literals. -/
theorem findIPs_nil_of_pyStrip_nil {b : List Char} (h : pyStrip b = []) : findIPs b = [] :=
  findIPsFuel_nil_of_space (forall_space_of_pyStrip_nil h)

/-- When no character of `piece` equals the separator's first character, the
first occurrence of the separator in `piece ++ sep ++ t` is right after
`piece`. -/
theorem firstOccur_boundary {s0 : Char} {s' t : List Char} :
    ∀ {piece : List Char}, (∀ c ∈ piece, c ≠ s0) →
      firstOccur (s0 :: s') (piece ++ s0 :: (s' ++ t)) = some piece.length := by
  intro piece
  induction piece with
  | nil =>
    intro _
    rw [List.nil_append, firstOccur,
      if_pos (List.isPrefixOf_iff_prefix.mpr
        (by rw [← List.cons_append]; exact List.prefix_append _ t))]
    rfl
  | cons c p ih =>
    intro hp
    have hc : c ≠ s0 := hp c (List.mem_cons_self c p)
    rw [List.cons_append, firstOccur]
    rw [if_neg (by simp [List.isPrefixOf]; intro h; exact absurd h.symm hc)]
    rw [ih fun x hx => hp x (List.mem_cons_of_mem c hx)]
    rfl

/-- One step of `pySplitFuel` when the separator occurs at index `i`. -/
theorem pySplitFuel_step {sep cs : List Char} {fuel i : Nat}
    (h : firstOccur sep cs = some i) :
    pySplitFuel sep (fuel + 1) cs =
      cs.take i :: pySplitFuel sep fuel (cs.drop (i + sep.length)) := by
  rw [pySplitFuel, h]

/-- Splitting `n` copies of `piece ++ sep` on `sep` gives `n` copies of
`piece` followed by one empty piece, when `piece` avoids the separator's
first character and the fuel covers `n` steps. -/
theorem pySplitFuel_repl {s0 : Char} {s' piece : List Char} (hp : ∀ c ∈ piece, c ≠ s0) :
    ∀ (n fuel : Nat), n ≤ fuel →
      pySplitFuel (s0 :: s') fuel (List.replicate n (piece ++ (s0 :: s'))).flatten =
        List.replicate n piece ++ [[]] := by
  intro n
  induction n with
  | zero =>
    intro fuel _
    cases fuel <;> rfl
  | succ n ih =>
    intro fuel hf
    cases fuel with
    | zero => omega
    | succ fuel =>
      rw [List.replicate_succ, List.flatten_cons, List.append_assoc, List.cons_append,
        pySplitFuel_step (firstOccur_boundary hp)]
      have htake : (piece ++ s0 :: (s' ++ (List.replicate n (piece ++ (s0 :: s'))).flatten)).take
          piece.length = piece :=
        List.take_left piece _
      have hdrop : (piece ++ s0 :: (s' ++ (List.replicate n (piece ++ (s0 :: s'))).flatten)).drop
          (piece.length + (s0 :: s').length) = (List.replicate n (piece ++ (s0 :: s'))).flatten := by
        rw [← List.cons_append, ← List.append_assoc, ← List.length_append]
        exact List.drop_left _ _
      rw [htake, hdrop, ih fuel (by omega), List.replicate_succ, List.cons_append]

/-- `pySplit` of `n` copies of `piece ++ sep`: `n` copies of `piece` and a
trailing empty piece. -/
theorem pySplit_repl {s0 : Char} {s' piece : List Char} (hp : ∀ c ∈ piece, c ≠ s0) (n : Nat) :
    pySplit (s0 :: s') (List.replicate n (piece ++ (s0 :: s'))).flatten =
      List.replicate n piece ++ [[]] := by
  apply pySplitFuel_repl hp
  have h1 : n ≤ n * (piece ++ (s0 :: s')).length :=
    Nat.le_mul_of_pos_right n (List.length_pos.mpr (by simp))
  have h2 : (List.replicate n (piece ++ (s0 :: s'))).flatten.length =
      n * (piece ++ (s0 :: s')).length := by
    rw [List.length_flatten, List.map_replicate, List.sum_replicate, smul_eq_mul]
  omega

/-- `filterMap` over `n` copies of a block that yields an alert, followed by
an empty trailing block, gives `n` copies of the alert. -/
theorem filterMap_replicate_append {α β : Type} {f : α → Option β} {x : α} {y : β} {z : α}
    (hx : f x = some y) (hz : f z = none) :
    ∀ n, (List.replicate n x ++ [z]).filterMap f = List.replicate n y := by
  intro n
  induction n with
  | zero => simp [hz]
  | succ n ih => simp [List.replicate_succ, List.filterMap_cons, hx, ih]

/-- A rational in `(-∞, 1]` has `num ≤ den`. -/
theorem num_le_den_of_le_one {q : ℚ} (h1 : q ≤ 1) : q.num ≤ (q.den : ℤ) := by
  have hd : (0 : ℚ) < (q.den : ℚ) := by
    exact_mod_cast Nat.pos_of_ne_zero q.den_nz
  have hq : (q.num : ℚ) / (q.den : ℚ) ≤ 1 := by rw [Rat.num_div_den]; exact h1
  have : (q.num : ℚ) ≤ (q.den : ℚ) := (div_le_one hd).mp hq
  exact_mod_cast this

/-- The branches of ties-to-even rounding stay within `[0, 100]` when the
value rounded is at most `100 d`. -/
theorem roundAux_bounds {m d : ℤ} (hd : 0 < d) (hm0 : 0 ≤ m) (hmd : m ≤ d * 100) :
    0 ≤ (if 2 * (m % d) < d then m / d
         else if d < 2 * (m % d) then m / d + 1
         else if (m / d) % 2 = 0 then m / d else m / d + 1) ∧
    (if 2 * (m % d) < d then m / d
     else if d < 2 * (m % d) then m / d + 1
     else if (m / d) % 2 = 0 then m / d else m / d + 1) ≤ 100 := by
  have hf0 : 0 ≤ m / d := Int.ediv_nonneg hm0 (le_of_lt hd)
  have hf100 : m / d ≤ 100 := by
    calc m / d ≤ d * 100 / d := Int.ediv_le_ediv hd hmd
      _ = 100 := by rw [Int.mul_comm]; exact Int.mul_ediv_cancel 100 (by omega)
  have hr0 : 0 ≤ m % d := Int.emod_nonneg _ (by omega)
  have hrlt : m % d < d := Int.emod_lt_of_pos _ hd
  have heq : d * (m / d) + m % d = m := Int.ediv_add_emod _ _
  have key : 0 < m % d → m / d + 1 ≤ 100 := by
    intro hrpos
    have hA : d * (m / d) < d * 100 := by omega
    have := (mul_lt_mul_left hd).mp hA
    omega
  constructor
  · split
    · exact hf0
    · split
      · omega
      · split <;> omega
  · split
    · exact hf100
    · split
      · exact key (by omega)
      · split
        · exact hf100
        · exact key (by omega)

/-- Two-decimal formatting maps a model score in `[0, 1]` to a centi-unit
value in `[0, 100]`. -/
theorem roundCenti_bounds {q : ℚ} (h0 : 0 ≤ q) (h1 : q ≤ 1) :
    0 ≤ roundCenti q ∧ roundCenti q ≤ 100 := by
  have hdpos : (0 : ℤ) < (q.den : ℤ) := by exact_mod_cast Nat.pos_of_ne_zero q.den_nz
  have hn0 : 0 ≤ q.num := Rat.num_nonneg.mpr h0
  have hnd : q.num ≤ (q.den : ℤ) := num_le_den_of_le_one h1
  have hm0 : 0 ≤ q.num * 100 := by positivity
  have hmd : q.num * 100 ≤ (q.den : ℤ) * 100 := by nlinarith
  exact roundAux_bounds hdpos hm0 hmd

/-- Every binding of the index-inference branch carries a formatted model
score. -/
theorem zeekIndexedScores_val {e : Env} {kv : List Char × ℤ}
    (h : kv ∈ zeekIndexedScores e) :
    ∃ i, kv.2 = roundCenti (e.modelScores i) := by
  unfold zeekIndexedScores at h
  by_cases h1 : none ∈ (zeekRows e.zeekContent).map
      fun r => (tokenInt? (r.headD ("nan".data))).bind
        (labelPos (zeekRows e.zeekContent).length)
  · simp only [if_pos h1] at h
    simp at h
  · simp only [if_neg h1] at h
    obtain ⟨p, -, hp⟩ := List.mem_map.mp h
    exact ⟨p.2.getD 0, by rw [← hp]⟩

/-- Every binding of the correlator's mapping carries a formatted model
score. -/
theorem get_ml_scores_val {e : Env} {kv : List Char × ℤ}
    (h : kv ∈ get_ml_scores_from_zeek e) :
    ∃ i, kv.2 = roundCenti (e.modelScores i) := by
  unfold get_ml_scores_from_zeek at h
  by_cases h1 : e.zeekExists = false ∨ e.modelLoaded = false
  · rw [if_pos h1] at h
    simp at h
  · rw [if_neg h1] at h
    by_cases h2 : zeekRegion e.zeekContent = []
    · simp only [if_pos h2] at h
      simp at h
    · simp only [if_neg h2] at h
      by_cases h3 : ((zeekRows e.zeekContent).any
          fun r => decide (max (zeekCols e.zeekContent).length
            ((zeekRows e.zeekContent).headD []).length < r.length)) = true
      · simp only [if_pos h3] at h
        simp at h
      · simp only [if_neg h3] at h
        by_cases h4 : zeekRows e.zeekContent ≠ [] ∧
            (("id.orig_h".data) ∉ zeekCols e.zeekContent ∨
             ("id.resp_h".data) ∉ zeekCols e.zeekContent)
        · simp only [if_pos h4] at h
          simp at h
        · simp only [if_neg h4] at h
          by_cases h5 : (zeekCols e.zeekContent).length + 1 =
              ((zeekRows e.zeekContent).headD []).length
          · simp only [if_pos h5] at h
            exact zeekIndexedScores_val h
          · simp only [if_neg h5] at h
            by_cases h6 : (zeekCols e.zeekContent).length <
                ((zeekRows e.zeekContent).headD []).length
            · simp only [if_pos h6] at h
              simp at h
            · simp only [if_neg h6] at h
              obtain ⟨p, -, hp⟩ := List.mem_map.mp h
              exact ⟨p.1, by rw [← hp]⟩

/-- The enrichment score is the default or one of the mapping's values. -/
theorem mlScore_cases (ml : List (List Char × ℤ)) (src dst : List Char) :
    mlScore ml src dst = 42 ∨ ∃ kv ∈ ml, mlScore ml src dst = kv.2 := by
  unfold mlScore lookupPair
  cases hf : dictGet ml (src ++ '-' :: dst) with
  | some v =>
    right
    exact ⟨_, dictGet_mem hf, by simp [Option.orElse]⟩
  | none =>
    cases hr : dictGet ml (dst ++ '-' :: src) with
    | some v =>
      right
      exact ⟨_, dictGet_mem hr, by simp [Option.orElse]⟩
    | none => left; simp [Option.orElse]

/-- Every alert of the engine's output comes from a successful
`processBlock` on some block of the alert source. -/
theorem mem_parse_output {e : Env} {a : EnrichedAlert}
    (h : a ∈ (parse_snort_and_correlate e).1) :
    ∃ b, processBlock (get_ml_scores_from_zeek e) b = some a := by
  unfold parse_snort_and_correlate at h
  by_cases hs : e.snortExists = false
  · simp only [if_pos hs] at h
    simp at h
  · simp only [if_neg hs] at h
    have h1 := List.take_subset _ _ h
    have h2 := List.mem_reverse.mp h1
    obtain ⟨b, -, hb⟩ := List.mem_filterMap.mp h2
    exact ⟨b, hb⟩

/-- Elements produced by `dedupAux` come from the remaining input and were
not yet seen. -/
theorem mem_dedupAux {α : Type} [DecidableEq α] :
    ∀ {t seen : List α} {a : α}, a ∈ dedupAux seen t → a ∈ t ∧ a ∉ seen := by
  intro t
  induction t with
  | nil =>
    intro seen a ha
    simp [dedupAux] at ha
  | cons x t ih =>
    intro seen a ha
    by_cases hx : x ∈ seen
    · rw [dedupAux, if_pos hx] at ha
      obtain ⟨h1, h2⟩ := ih ha
      exact ⟨List.mem_cons_of_mem _ h1, h2⟩
    · rw [dedupAux, if_neg hx] at ha
      rcases List.mem_cons.mp ha with rfl | ha'
      · exact ⟨List.mem_cons_self _ _, hx⟩
      · obtain ⟨h1, h2⟩ := ih ha'
        exact ⟨List.mem_cons_of_mem _ h1, fun hs => h2 (List.mem_cons_of_mem _ hs)⟩

/-- `firstIdx` at the list's own head. -/
theorem firstIdx_cons_self {α : Type} [DecidableEq α] (x : α) (t : List α) :
    firstIdx x (x :: t) = 0 := by
  simp [firstIdx]

/-- `firstIdx` skips a head that differs from the sought element. -/
theorem firstIdx_cons_ne {α : Type} [DecidableEq α] {x y : α} (h : y ≠ x) (t : List α) :
    firstIdx x (y :: t) = firstIdx x t + 1 := by
  simp [firstIdx, h]

/-- The first-appearance list is strictly increasing in first-occurrence
index: `dedupAux` emits keys in the order they first occur. -/
theorem pairwise_firstIdx_dedupAux {α : Type} [DecidableEq α] :
    ∀ (t seen : List α),
      (dedupAux seen t).Pairwise fun a b => firstIdx a t < firstIdx b t := by
  intro t
  induction t with
  | nil =>
    intro seen
    simp [dedupAux]
  | cons x t ih =>
    intro seen
    by_cases hx : x ∈ seen
    · rw [dedupAux, if_pos hx]
      refine (ih seen).imp_of_mem ?_
      intro a b ha hb hab
      have hna : a ≠ x := fun h => (mem_dedupAux ha).2 (h ▸ hx)
      have hnb : b ≠ x := fun h => (mem_dedupAux hb).2 (h ▸ hx)
      rw [firstIdx_cons_ne (Ne.symm hna), firstIdx_cons_ne (Ne.symm hnb)]
      omega
    · rw [dedupAux, if_neg hx]
      refine List.Pairwise.cons ?_ ?_
      · intro b hb
        have hnb : b ≠ x := fun h => (mem_dedupAux hb).2 (h ▸ List.mem_cons_self x seen)
        rw [firstIdx_cons_self, firstIdx_cons_ne (Ne.symm hnb)]
        omega
      · refine (ih (x :: seen)).imp_of_mem ?_
        intro a b ha hb hab
        have hna : a ≠ x := fun h => (mem_dedupAux ha).2 (h ▸ List.mem_cons_self x seen)
        have hnb : b ≠ x := fun h => (mem_dedupAux hb).2 (h ▸ List.mem_cons_self x seen)
        rw [firstIdx_cons_ne (Ne.symm hna), firstIdx_cons_ne (Ne.symm hnb)]
        omega

/-- The three contract properties of `mostCommon`: bounded length,
non-increasing counts, and ties broken by first appearance in the input. -/
theorem mostCommon_spec (xs : List (List Char)) (n : Nat) :
    (mostCommon n xs).length ≤ n ∧
    (mostCommon n xs).Pairwise (fun p q => q.2 ≤ p.2) ∧
    (mostCommon n xs).Pairwise
      (fun p q => p.2 = q.2 → firstIdx p.1 xs < firstIdx q.1 xs) := by
  have hded : (dedupFirst xs).Pairwise (fun a b => firstIdx a xs < firstIdx b xs) :=
    pairwise_firstIdx_dedupAux xs []
  have hitems : ((dedupFirst xs).map fun k => (k, xs.count k)).Pairwise
      (fun p q => firstIdx p.1 xs < firstIdx q.1 xs) := by
    rw [List.pairwise_map]
    exact hded
  have henum_fst : (((dedupFirst xs).map fun k => (k, xs.count k)).enum).Pairwise
      (fun a b => a.1 < b.1) := by
    have h1 : ((((dedupFirst xs).map fun k => (k, xs.count k)).enum).map Prod.fst).Pairwise
        (· < ·) := by
      rw [List.enum_map_fst]
      exact List.pairwise_lt_range _
    rw [List.pairwise_map] at h1
    exact h1
  have henum_snd : (((dedupFirst xs).map fun k => (k, xs.count k)).enum).Pairwise
      (fun a b => firstIdx a.2.1 xs < firstIdx b.2.1 xs) := by
    have h1 : ((((dedupFirst xs).map fun k => (k, xs.count k)).enum).map Prod.snd).Pairwise
        (fun p q => firstIdx p.1 xs < firstIdx q.1 xs) := by
      rw [List.enum_map_snd]
      exact hitems
    rw [List.pairwise_map] at h1
    exact h1
  have hsymm : Symmetric (fun a b : Nat × (List Char × Nat) =>
      (a.1 < b.1 ∧ firstIdx a.2.1 xs < firstIdx b.2.1 xs) ∨
      (b.1 < a.1 ∧ firstIdx b.2.1 xs < firstIdx a.2.1 xs)) := by
    intro a b h
    rcases h with h | h
    · exact Or.inr h
    · exact Or.inl h
  have hsym : (((dedupFirst xs).map fun k => (k, xs.count k)).enum).Pairwise
      (fun a b => (a.1 < b.1 ∧ firstIdx a.2.1 xs < firstIdx b.2.1 xs) ∨
        (b.1 < a.1 ∧ firstIdx b.2.1 xs < firstIdx a.2.1 xs)) :=
    (henum_fst.and henum_snd).imp fun h => Or.inl h
  have hperm : List.Perm
      ((((dedupFirst xs).map fun k => (k, xs.count k)).enum).insertionSort rankRel)
      (((dedupFirst xs).map fun k => (k, xs.count k)).enum) :=
    List.perm_insertionSort _ _
  have hsorted : ((((dedupFirst xs).map fun k => (k, xs.count k)).enum).insertionSort
      rankRel).Pairwise rankRel :=
    List.sorted_insertionSort rankRel _
  have hsym2 := (List.Perm.pairwise_iff (fun {a b} h => hsymm h) hperm).mpr hsym
  have hcomb := hsorted.and hsym2
  have hmap : (((((dedupFirst xs).map fun k => (k, xs.count k)).enum).insertionSort
      rankRel).map Prod.snd).Pairwise
      (fun p q => q.2 ≤ p.2 ∧ (p.2 = q.2 → firstIdx p.1 xs < firstIdx q.1 xs)) := by
    rw [List.pairwise_map]
    refine hcomb.imp ?_
    rintro a b ⟨hrank, hsy⟩
    constructor
    · rcases hrank with h | ⟨h, -⟩
      · exact le_of_lt h
      · exact le_of_eq h.symm
    · intro heq
      rcases hsy with ⟨-, hlt⟩ | ⟨hba, -⟩
      · exact hlt
      · rcases hrank with h | ⟨-, hab⟩
        · omega
        · omega
  have ht : mostCommon n xs =
      (((((dedupFirst xs).map fun k => (k, xs.count k)).enum).insertionSort
        rankRel).map Prod.snd).take n := rfl
  refine ⟨?_, ?_, ?_⟩
  · rw [ht]
    exact List.length_take_le _ _
  · rw [ht]
    exact List.Pairwise.sublist (List.take_sublist _ _) (hmap.imp fun h => h.1)
  · rw [ht]
    exact List.Pairwise.sublist (List.take_sublist _ _) (hmap.imp fun h => h.2)

/-! ## Claims -/

/-- C3 (confirmed): for every correlation lookup table and host pair, the
score lookup returns the forward-key (`srcIp-dstIp`) entry whenever that key
is bound, even if a reverse-key entry also exists; when the forward key is
unbound it returns the reverse-key (`dstIp-srcIp`) lookup; and it is absent
when neither key is bound. -/
theorem claim_C3 (ml : List (List Char × ℤ)) (src dst : List Char) :
    (∀ v, dictGet ml (src ++ '-' :: dst) = some v → lookupPair ml src dst = some v) ∧
    (dictGet ml (src ++ '-' :: dst) = none →
        lookupPair ml src dst = dictGet ml (dst ++ '-' :: src)) ∧
    (dictGet ml (src ++ '-' :: dst) = none → dictGet ml (dst ++ '-' :: src) = none →
        lookupPair ml src dst = none) :=
  ⟨fun _ h => lookupPair_some_left h,
   fun h => lookupPair_left_none h,
   fun h1 h2 => (lookupPair_left_none h1).trans h2⟩

/-- A table binding a host pair in both directions, a pair bound only in
reverse, and a pair bound in neither. -/
def c3table : List (List Char × ℤ) :=
  [("1.1.1.1-2.2.2.2".data, 70), ("2.2.2.2-1.1.1.1".data, 30), ("5.5.5.5-6.6.6.6".data, 80)]

/-- Witness for C3: forward entry wins over a coexisting reverse entry,
the reverse entry is used when forward is absent, and a pair bound in
neither direction is absent. -/
theorem claim_C3_witness :
    lookupPair c3table ("1.1.1.1".data) ("2.2.2.2".data) = some 70 ∧
    lookupPair c3table ("6.6.6.6".data) ("5.5.5.5".data) = some 80 ∧
    lookupPair c3table ("7.7.7.7".data) ("8.8.8.8".data) = none :=
  ⟨(claim_C3 c3table ("1.1.1.1".data) ("2.2.2.2".data)).1 70 (by decide),
   ((claim_C3 c3table ("6.6.6.6".data) ("5.5.5.5".data)).2.1 (by decide)).trans (by decide),
   (claim_C3 c3table ("7.7.7.7".data) ("8.8.8.8".data)).2.2 (by decide) (by decide)⟩

/-- C1 counterexample: a block whose host pair has no correlation entry in
either direction (empty table) is enriched with the default score `"0.42"`,
i.e. 42 centi-units, which does *not* lie in the claimed range
0.85–0.89 (85–89 centi-units); and the emitted record has no
`score_source` key at all. -/
theorem claim_C1_cex :
    (processBlock [] ("x 1.2.3.4 -> 5.6.7.8".data)).map EnrichedAlert.anomaly_score = some 42 ∧
    ¬(85 ≤ (42 : ℤ) ∧ (42 : ℤ) ≤ 89) ∧
    "score_source" ∉ alertDictKeys := by
  refine ⟨by decide, by decide, by decide⟩

/-- C1 (amended): for every correlation table and block, an alert whose host
pair is bound in neither direction receives the fixed default anomaly score
`"0.42"` (42 centi-units) — which lies outside 0.85–0.89 — and no
`scoreSource` marker exists: the record's constant `action` field `"ALERT"`
and the absence of a `score_source` key are all it carries. -/
theorem claim_C1 (ml : List (List Char × ℤ)) (b : List Char) (a : EnrichedAlert)
    (hb : processBlock ml b = some a)
    (hf : dictGet ml (a.src_ip ++ '-' :: a.dst_ip) = none)
    (hr : dictGet ml (a.dst_ip ++ '-' :: a.src_ip) = none) :
    a.anomaly_score = 42 ∧ ¬(85 ≤ a.anomaly_score ∧ a.anomaly_score ≤ 89) ∧
    a.action = "ALERT".data ∧ "score_source" ∉ alertDictKeys := by
  have hsc := processBlock_score hb
  have hml : mlScore ml a.src_ip a.dst_ip = 42 := by
    rw [mlScore, lookupPair_left_none hf, hr]; rfl
  rw [hsc, hml]
  exact ⟨rfl, by omega, (processBlock_some hb).1, by decide⟩

/-- The alert produced from the witness block `"x 1.2.3.4 -> 5.6.7.8"`. -/
def c1alert : EnrichedAlert :=
  ⟨"Unknown".data, "0".data, "x 1.2.3.4 -> 5.6.7.8".data,
   "1.2.3.4".data, "5.6.7.8".data, "ALERT".data, 42⟩

/-- Witness for C1: a table binding an unrelated pair leaves the block's
host pair unmatched, so the default 0.42 is assigned. -/
theorem claim_C1_witness :
    c1alert.anomaly_score = 42 ∧
    ¬(85 ≤ c1alert.anomaly_score ∧ c1alert.anomaly_score ≤ 89) ∧
    c1alert.action = "ALERT".data ∧ "score_source" ∉ alertDictKeys :=
  claim_C1 [("9.9.9.9-8.8.8.8".data, 99)] ("x 1.2.3.4 -> 5.6.7.8".data) c1alert
    (by decide) (by decide) (by decide)

/-- C6 (confirmed): a missing alert-source file makes the engine return the
empty result tuple (zero-count success, no error); a missing flow-source
file or an unloaded scoring model makes the correlator return the empty
mapping; and enrichment against the empty mapping falls back to the default
score for every alert. -/
theorem claim_C6 (e : Env) :
    (e.snortExists = false → parse_snort_and_correlate e = ([], 0, 0, [])) ∧
    (e.zeekExists = false ∨ e.modelLoaded = false → get_ml_scores_from_zeek e = []) ∧
    (∀ b a, processBlock ([] : List (List Char × ℤ)) b = some a → a.anomaly_score = 42) := by
  refine ⟨fun h => ?_, fun h => ?_, fun b a hb => ?_⟩
  · simp [parse_snort_and_correlate, h]
  · rcases h with h | h <;> simp [get_ml_scores_from_zeek, h]
  · rw [processBlock_score hb]; rfl

/-- An environment with no alert-source file. -/
def c6envA : Env := ⟨false, [], true, [], true, fun _ => 0⟩

/-- An environment with an alert source but no flow-source file. -/
def c6envB : Env := ⟨true, "4.3.2.1 8.7.6.5".data, false, [], true, fun _ => 0⟩

/-- The alert produced from the block `"4.3.2.1 8.7.6.5"`. -/
def c6alert : EnrichedAlert :=
  ⟨"Unknown".data, "0".data, "4.3.2.1 8.7.6.5".data,
   "4.3.2.1".data, "8.7.6.5".data, "ALERT".data, 42⟩

/-- Witness for C6 at concrete environments. -/
theorem claim_C6_witness :
    parse_snort_and_correlate c6envA = ([], 0, 0, []) ∧
    get_ml_scores_from_zeek c6envB = [] ∧
    c6alert.anomaly_score = 42 :=
  ⟨(claim_C6 c6envA).1 rfl,
   (claim_C6 c6envB).2.1 (Or.inl rfl),
   (claim_C6 c6envA).2.2 ("4.3.2.1 8.7.6.5".data) c6alert (by decide)⟩

/-- C9 (confirmed): a block containing fewer than two IPv4 literals yields
no alert; a block containing two or more yields an alert whose `src_ip` is
the first occurrence and whose `dst_ip` is the second. -/
theorem claim_C9 (ml : List (List Char × ℤ)) (b : List Char) :
    ((findIPs b).length < 2 → processBlock ml b = none) ∧
    (2 ≤ (findIPs b).length →
      (processBlock ml b).map EnrichedAlert.src_ip = some ((findIPs b).headD []) ∧
      (processBlock ml b).map EnrichedAlert.dst_ip = some (((findIPs b).drop 1).headD [])) := by
  constructor
  · intro h
    by_cases h1 : pyStrip b = []
    · unfold processBlock
      rw [if_pos h1]
    · unfold processBlock
      rw [if_neg h1]
      simp only [if_pos h]
  · intro h
    have h1 : pyStrip b ≠ [] := by
      intro hnil
      rw [findIPs_nil_of_pyStrip_nil hnil] at h
      simp at h
    have h2 : ¬((findIPs b).length < 2) := by omega
    unfold processBlock
    rw [if_neg h1]
    simp only [if_neg h2]
    exact ⟨rfl, rfl⟩

/-- Witness for C9: a block with no IPv4 literal yields nothing; a two-IP
block yields the first IP as source and the second as destination. -/
theorem claim_C9_witness :
    processBlock [] ("no addresses here".data) = none ∧
    (processBlock [] ("2.2.2.2 goes to 3.3.3.3".data)).map EnrichedAlert.src_ip =
      some ("2.2.2.2".data) ∧
    (processBlock [] ("2.2.2.2 goes to 3.3.3.3".data)).map EnrichedAlert.dst_ip =
      some ("3.3.3.3".data) :=
  ⟨(claim_C9 [] ("no addresses here".data)).1 (by decide),
   ((claim_C9 [] ("2.2.2.2 goes to 3.3.3.3".data)).2 (by decide)).1.trans (by decide),
   ((claim_C9 [] ("2.2.2.2 goes to 3.3.3.3".data)).2 (by decide)).2.trans (by decide)⟩

/-- C10 (confirmed): every emitted alert fills unparsed optional fields with
fixed sentinel strings — a block with no `MM/DD-HH:MM:SS` timestamp gives
`timestamp = "Unknown"`, and a block with no `<int>:<int>:<int>` signature
identifier gives `sid = "0"`. -/
theorem claim_C10 (ml : List (List Char × ℤ)) (b : List Char) (a : EnrichedAlert)
    (h : processBlock ml b = some a) :
    (searchTs b = none → a.timestamp = "Unknown".data) ∧
    (searchSid b = none → a.sid = "0".data) := by
  obtain ⟨-, -, -, ht, hs, -⟩ := processBlock_some h
  exact ⟨fun hn => by rw [ht, hn]; rfl, fun hn => by rw [hs, hn]; rfl⟩

/-- The 15-character block of the C4 counterexample. -/
def c4piece : List Char := "1.1.1.1 2.2.2.2".data

/-- An alert source holding 101 copies of `c4piece` delimited by `[**]`. -/
def c4envBig : Env :=
  ⟨true, (List.replicate 101 (c4piece ++ "[**]".data)).flatten, false, [], false, fun _ => 0⟩

/-- The alert each copy of `c4piece` parses to (default score: no flow data). -/
def c4alertBig : EnrichedAlert :=
  ⟨"Unknown".data, "0".data, c4piece, "1.1.1.1".data, "2.2.2.2".data, "ALERT".data, 42⟩

/-- C2 counterexample: the engine performs no clamping — a run whose opaque
model scores a flow row as 3.7 (a legal `predict` output) produces an
enriched alert with anomaly score `"3.70"` (370 centi-units), which is
outside `[0, 1]` (since `3.70 = 370/100 > 1`). -/
theorem claim_C2_cex :
    (parse_snort_and_correlate
      ⟨true, "alert [**] 1.1.1.1 -> 2.2.2.2".data, true,
       "#fields ts\tid.orig_h\tid.resp_h\n1.0\t1.1.1.1\t2.2.2.2".data,
       true, fun _ => Rat.divInt 37 10⟩).1.map EnrichedAlert.anomaly_score = [370] ∧
    ¬((370 : ℤ) ≤ 100) ∧ (1 : ℚ) < (370 : ℚ) / 100 :=
  ⟨by decide, by decide, by norm_num⟩

/-- C2 (amended): the engine never clamps; an enriched score is either the
default `"0.42"` or a two-decimal-formatted model score.  Consequently,
whenever every model score lies in `[0, 1]` (as a probability does), every
enriched alert's anomaly score lies in `[0, 1]` — in centi-units, in
`[0, 100]` — but a model score outside `[0, 1]` passes through unclamped. -/
theorem claim_C2 (e : Env) (hm : ∀ i, 0 ≤ e.modelScores i ∧ e.modelScores i ≤ 1) :
    ∀ a ∈ (parse_snort_and_correlate e).1,
      (0 ≤ a.anomaly_score ∧ a.anomaly_score ≤ 100) ∧
      (0 ≤ (a.anomaly_score : ℚ) / 100 ∧ (a.anomaly_score : ℚ) / 100 ≤ 1) := by
  intro a ha
  obtain ⟨b, hb⟩ := mem_parse_output ha
  have hsc := processBlock_score hb
  have hcenti : 0 ≤ a.anomaly_score ∧ a.anomaly_score ≤ 100 := by
    rcases mlScore_cases (get_ml_scores_from_zeek e) a.src_ip a.dst_ip with h | ⟨kv, hkv, h⟩
    · rw [hsc, h]
      omega
    · obtain ⟨i, hi⟩ := get_ml_scores_val hkv
      rw [hsc, h, hi]
      exact roundCenti_bounds (hm i).1 (hm i).2
  have hq0 : (0 : ℚ) ≤ (a.anomaly_score : ℚ) := by exact_mod_cast hcenti.1
  refine ⟨hcenti, div_nonneg hq0 (by norm_num), ?_⟩
  rw [div_le_one (by norm_num)]
  exact_mod_cast hcenti.2

/-- A run in which the model scores the one flow row 0.97 and the alert
source holds one block over the scored host pair. -/
def c2wenv : Env :=
  ⟨true, "x [**] 3.3.3.3 -> 4.4.4.4".data, true,
   "#fields ts\tid.orig_h\tid.resp_h\n1.0\t3.3.3.3\t4.4.4.4".data, true,
   fun _ => Rat.divInt 97 100⟩

/-- The alert `c2wenv` produces: correlated score `"0.97"`. -/
def c2walert : EnrichedAlert :=
  ⟨"Unknown".data, "0".data, "3.3.3.3 -> 4.4.4.4".data,
   "3.3.3.3".data, "4.4.4.4".data, "ALERT".data, 97⟩

/-- Witness for C2: with an in-range model (0.97), the produced alert's
score is in range. -/
theorem claim_C2_witness :
    (0 ≤ c2walert.anomaly_score ∧ c2walert.anomaly_score ≤ 100) ∧
    (0 ≤ (c2walert.anomaly_score : ℚ) / 100 ∧ (c2walert.anomaly_score : ℚ) / 100 ≤ 1) :=
  claim_C2 c2wenv
    (fun _ => show 0 ≤ Rat.divInt 97 100 ∧ Rat.divInt 97 100 ≤ 1 by
      rw [Rat.divInt_eq_div]; norm_num)
    c2walert (by decide)

/-- C4 counterexample: an alert source with 101 parseable blocks yields only
100 output entries while reporting 101 parsed alerts — the engine itself
truncates to the newest 100, so the output is *not* one entry per parsed
alert. -/
theorem claim_C4_cex :
    (parse_snort_and_correlate c4envBig).1.length = 100 ∧
    (parse_snort_and_correlate c4envBig).2.1 = 101 := by
  have hml : get_ml_scores_from_zeek c4envBig = [] := rfl
  have hex : c4envBig.snortExists = true := rfl
  have hco : c4envBig.snortContent = (List.replicate 101 (c4piece ++ "[**]".data)).flatten := rfl
  have hsplit : pySplit ("[**]".data) (List.replicate 101 (c4piece ++ "[**]".data)).flatten =
      List.replicate 101 c4piece ++ [[]] := pySplit_repl (by decide) 101
  have hpb : processBlock ([] : List (List Char × ℤ)) c4piece = some c4alertBig := by decide
  have hfm : (List.replicate 101 c4piece ++ [[]]).filterMap
      (processBlock ([] : List (List Char × ℤ))) = List.replicate 101 c4alertBig :=
    filterMap_replicate_append hpb (by decide) 101
  have hparse : parse_snort_and_correlate c4envBig =
      ((List.replicate 101 c4alertBig).reverse.take 100,
       (List.replicate 101 c4alertBig).length, 0,
       mostCommon 5 (((List.replicate 101 c4alertBig).reverse.take 100).map
         EnrichedAlert.msg)) := by
    unfold parse_snort_and_correlate
    simp only [hml, hex, hco, hsplit, hfm]
    rw [if_neg (show ¬(true = false) by simp)]
  rw [hparse]
  constructor
  · simp only [List.length_take, List.length_reverse, List.length_replicate]
    omega
  · simp only [List.length_replicate]

/-- C4 (amended): when the alert source exists, the output sequence is the
reversal of the parsed-alert sequence (file order is oldest-first, output is
newest-first) *truncated to the first 100 entries*; the reported total is the
full parsed count, the output length is `min total 100`, and the output is
exactly the reversal only when at most 100 alerts were parsed. -/
theorem claim_C4 (e : Env) (h : e.snortExists = true) :
    (parse_snort_and_correlate e).1 =
      ((pySplit ("[**]".data) e.snortContent).filterMap
        (processBlock (get_ml_scores_from_zeek e))).reverse.take 100 ∧
    (parse_snort_and_correlate e).2.1 =
      ((pySplit ("[**]".data) e.snortContent).filterMap
        (processBlock (get_ml_scores_from_zeek e))).length ∧
    (parse_snort_and_correlate e).1.length = min (parse_snort_and_correlate e).2.1 100 ∧
    ((parse_snort_and_correlate e).2.1 ≤ 100 →
      (parse_snort_and_correlate e).1 =
        ((pySplit ("[**]".data) e.snortContent).filterMap
          (processBlock (get_ml_scores_from_zeek e))).reverse) := by
  have hne : ¬(e.snortExists = false) := by simp [h]
  refine ⟨?_, ?_, ?_, ?_⟩
  · simp only [parse_snort_and_correlate, if_neg hne]
  · simp only [parse_snort_and_correlate, if_neg hne]
  · simp only [parse_snort_and_correlate, if_neg hne, List.length_take,
      List.length_reverse]
    exact Nat.min_comm _ _
  · intro hlen
    simp only [parse_snort_and_correlate, if_neg hne] at hlen ⊢
    exact List.take_of_length_le (by simpa using hlen)

/-- An environment whose alert source holds two parseable blocks. -/
def c4env : Env := ⟨true, "5.5.5.5 6.6.6.6[**]7.7.7.7 8.8.8.8".data, false, [], false, fun _ => 0⟩

/-- Witness for C4: with two parsed alerts (≤ 100) the output is exactly the
reversal of the parsed sequence and the reported total is 2. -/
theorem claim_C4_witness :
    (parse_snort_and_correlate c4env).1 =
      ((pySplit ("[**]".data) c4env.snortContent).filterMap
        (processBlock (get_ml_scores_from_zeek c4env))).reverse ∧
    (parse_snort_and_correlate c4env).2.1 = 2 :=
  ⟨(claim_C4 c4env rfl).2.2.2 (by decide), by decide⟩

/-- C5 counterexample: a flow log whose first row matches the header (so the
header establishes the schema width) and whose second row has more fields
yields the empty mapping, although the same log with only its first row
yields one scored record — one bad row turns a partially valid file into
zero records, instead of being dropped individually. -/
theorem claim_C5_cex :
    get_ml_scores_from_zeek
      ⟨false, [], true,
       "#fields ts\tid.orig_h\tid.resp_h\n1.0\t10.0.0.5\t10.0.0.9\n2.0\t1.2.3.4\t5.6.7.8\tx\ty".data,
       true, fun _ => Rat.divInt 97 100⟩ = [] ∧
    get_ml_scores_from_zeek
      ⟨false, [], true,
       "#fields ts\tid.orig_h\tid.resp_h\n1.0\t10.0.0.5\t10.0.0.9".data,
       true, fun _ => Rat.divInt 97 100⟩ = [("10.0.0.5-10.0.0.9".data, 97)] := by
  constructor
  · decide
  · decide

/-- C5 (amended): when the first data row does not exceed the header width
(so the header establishes the schema width and no implicit index-column
inference takes place), a data row with more fields than the header makes
the *entire* flow file yield the empty mapping (the `ParserError` is caught
by the blanket `except`, which returns `{}`): rows are not dropped
individually, and any valid rows in the same file are discarded with the
bad one. -/
theorem claim_C5 (e : Env) (hz : e.zeekExists = true) (hm : e.modelLoaded = true)
    (hw : ((zeekRows e.zeekContent).headD []).length ≤ (zeekCols e.zeekContent).length)
    (hbad : ∃ r ∈ zeekRows e.zeekContent, (zeekCols e.zeekContent).length < r.length) :
    get_ml_scores_from_zeek e = [] := by
  obtain ⟨r, hr, hlen⟩ := hbad
  have hreg : ¬(zeekRegion e.zeekContent = []) := by
    intro h0
    rw [zeekRows, h0] at hr
    simp at hr
  have hany : ((zeekRows e.zeekContent).any
      fun r => decide (max (zeekCols e.zeekContent).length
        ((zeekRows e.zeekContent).headD []).length < r.length)) = true :=
    List.any_eq_true.mpr ⟨r, hr, by simp only [decide_eq_true_eq]; omega⟩
  unfold get_ml_scores_from_zeek
  rw [hz, hm]
  simp only [if_neg (show ¬(true = false ∨ true = false) by simp),
    if_neg hreg, if_pos hany]

/-- Witness for C5: the bad-row environment of the counterexample satisfies
the hypotheses (its first row has 3 fields matching the 3-column header, its
second row has 5), so the whole file yields the empty mapping. -/
theorem claim_C5_witness :
    get_ml_scores_from_zeek
      ⟨false, [], true,
       "#fields ts\tid.orig_h\tid.resp_h\n1.0\t10.0.0.5\t10.0.0.9\n2.0\t1.2.3.4\t5.6.7.8\tx\ty".data,
       true, fun _ => Rat.divInt 97 100⟩ = [] :=
  claim_C5 _ rfl rfl (by decide)
    ⟨["2.0".data, "1.2.3.4".data, "5.6.7.8".data, "x".data, "y".data], by decide, by decide⟩

/-- The environment of the specification's compact-line scenario: the sample
line as the whole alert source, and no flow correlation data. -/
def c7env : Env :=
  ⟨true,
   "10/05-14:22:01 [**] [1:999:1] Possible Scan [**] {TCP} 10.0.0.5:443 -> 10.0.0.9:80".data,
   false, [], false, fun _ => 0⟩

/-- The single alert the engine produces in the compact-line scenario. -/
def c7alert : EnrichedAlert :=
  ⟨"Unknown".data, "0".data, "{TCP} 10.0.0.5:443 -> 10.0.0.9:80".data,
   "10.0.0.5".data, "10.0.0.9".data, "ALERT".data, 42⟩

/-- C7 counterexample: on the scenario line the engine produces exactly one
alert with the expected addresses, but the record carries *no* `src_port`,
`dst_port` or `score_source` key — ports are never extracted, so the claimed
`srcPort = "443"`, `dstPort = "80"` and `scoreSource = DefaultNoFlow` fields
do not exist. -/
theorem claim_C7_cex :
    (parse_snort_and_correlate c7env).1 = [c7alert] ∧
    "src_port" ∉ alertDictKeys ∧ "dst_port" ∉ alertDictKeys ∧
    "score_source" ∉ alertDictKeys :=
  ⟨by decide, by decide, by decide, by decide⟩

/-- C7 (amended): the compact-form scenario line yields exactly one enriched
alert, with `src_ip = "10.0.0.5"`, `dst_ip = "10.0.0.9"`, the default score
0.42 (42 centi-units, no flow data), timestamp sentinel `"Unknown"` (the
line's timestamp sits in a different split block), and no port or
score-source fields. -/
theorem claim_C7 :
    (parse_snort_and_correlate c7env).1 = [c7alert] ∧
    c7alert.src_ip = "10.0.0.5".data ∧ c7alert.dst_ip = "10.0.0.9".data ∧
    c7alert.anomaly_score = 42 ∧ c7alert.timestamp = "Unknown".data :=
  ⟨by decide, rfl, rfl, rfl, rfl⟩

/-- C8 (confirmed): for every enriched-alert sequence and every bound
`topK`, the offender summary has length at most `topK`, its counts are
non-increasing from first to last, and two keys of equal count are ranked in
order of first appearance in the (newest-first) input sequence. -/
theorem claim_C8 (alerts : List EnrichedAlert) (n : Nat) :
    (mostCommon n (alerts.map EnrichedAlert.msg)).length ≤ n ∧
    (mostCommon n (alerts.map EnrichedAlert.msg)).Pairwise (fun p q => q.2 ≤ p.2) ∧
    (mostCommon n (alerts.map EnrichedAlert.msg)).Pairwise
      (fun p q => p.2 = q.2 →
        firstIdx p.1 (alerts.map EnrichedAlert.msg) <
          firstIdx q.1 (alerts.map EnrichedAlert.msg)) :=
  mostCommon_spec (alerts.map EnrichedAlert.msg) n

/-- The alert produced from the block `"9.9.9.9 x 7.7.7.7"`. -/
def c10alert : EnrichedAlert :=
  ⟨"Unknown".data, "0".data, "9.9.9.9 x 7.7.7.7".data,
   "9.9.9.9".data, "7.7.7.7".data, "ALERT".data, 42⟩

/-- Witness for C10: a block with neither timestamp nor signature id gets
both sentinels. -/
theorem claim_C10_witness :
    c10alert.timestamp = "Unknown".data ∧ c10alert.sid = "0".data :=
  ⟨(claim_C10 [] ("9.9.9.9 x 7.7.7.7".data) c10alert (by decide)).1 (by decide),
   (claim_C10 [] ("9.9.9.9 x 7.7.7.7".data) c10alert (by decide)).2 (by decide)⟩

end AiPy

/-! ## Concrete evaluations validating the embedding

Small closed inputs exercised end to end, checking that the embedded string
primitives, pattern scanners, aggregator, rounding and engine behave as the
source does on known examples. -/

section SanityChecks

open AiPy

example : pySplit (['*']) ("a*b**c".data) = ["a".data, "b".data, [], "c".data] := by decide

example : findIPs ("x 10.0.0.5:443 -> 10.0.0.9:80".data) = ["10.0.0.5".data, "10.0.0.9".data] := by
  decide

example : findIPs ("1234.5.6.7.8".data) = ["234.5.6.7".data] := by decide

example : searchSid ("[1:999:1] ok".data) = some ("1:999:1".data) := by decide

example : searchSid (" {TCP} 10.0.0.5:443 -> 10.0.0.9:80".data) = none := by decide

example : searchTs ("10/05-14:22:01 x".data) = some ("10/05-14:22:01".data) := by decide

example : pyStrip ("  a b \n".data) = "a b".data := by decide

example : mostCommon 2 ["b".data, "a".data, "c".data, "a".data, "c".data] =
    [("a".data, 2), ("c".data, 2)] := by decide

example : mostCommon 5 ["b".data, "a".data, "a".data] =
    [("a".data, 2), ("b".data, 1)] := by decide

example : roundCenti (Rat.divInt 97 100) = 97 := by decide

example : roundCenti (Rat.divInt 37 10) = 370 := by decide

example : roundCenti (Rat.divInt 1 3) = 33 := by decide

example :
    processBlock [] (" {TCP} 10.0.0.5:443 -> 10.0.0.9:80".data) =
      some { timestamp := "Unknown".data
             sid := "0".data
             msg := "{TCP} 10.0.0.5:443 -> 10.0.0.9:80".data
             src_ip := "10.0.0.5".data
             dst_ip := "10.0.0.9".data
             action := "ALERT".data
             anomaly_score := 42 } := by decide

example :
    (parse_snort_and_correlate
      { snortExists := true
        snortContent :=
          "10/05-14:22:01 [**] [1:999:1] Possible Scan [**] {TCP} 10.0.0.5:443 -> 10.0.0.9:80".data
        zeekExists := false
        zeekContent := []
        modelLoaded := false
        modelScores := fun _ => 0 }).1.length = 1 := by decide

example :
    get_ml_scores_from_zeek
      { snortExists := false
        snortContent := []
        zeekExists := true
        zeekContent := "#sep\n#fields ts\tid.orig_h\tid.resp_h\n1.0\t10.0.0.5\t10.0.0.9".data
        modelLoaded := true
        modelScores := fun _ => Rat.divInt 97 100 } =
      [("10.0.0.5-10.0.0.9".data, 97)] := by decide

example :  -- first data row wider by one, integer leading column: implicit
           -- index inference, shifted columns, non-empty result
    get_ml_scores_from_zeek
      { snortExists := false
        snortContent := []
        zeekExists := true
        zeekContent := "#fields ts\tid.orig_h\tid.resp_h\n0\t1.0\t10.0.0.5\t10.0.0.9".data
        modelLoaded := true
        modelScores := fun _ => Rat.divInt 97 100 } =
      [("10.0.0.5-10.0.0.9".data, 97)] := by decide

example :  -- implicit index with a float-typed leading column: `scores[1.0]`
           -- raises, the except yields {}
    get_ml_scores_from_zeek
      { snortExists := false
        snortContent := []
        zeekExists := true
        zeekContent := "#fields ts\tid.orig_h\tid.resp_h\n1.0\t2.0\t10.0.0.5\t10.0.0.9".data
        modelLoaded := true
        modelScores := fun _ => Rat.divInt 97 100 } = [] := by decide

example :  -- first data row wider by two: the tuple label raises, {}
    get_ml_scores_from_zeek
      { snortExists := false
        snortContent := []
        zeekExists := true
        zeekContent := "#fields ts\tid.orig_h\tid.resp_h\n0\t1\t2.0\t10.0.0.5\t10.0.0.9".data
        modelLoaded := true
        modelScores := fun _ => Rat.divInt 97 100 } = [] := by decide

example :  -- a row wider than the width set by the wider first data row:
           -- genuine ParserError, {}
    get_ml_scores_from_zeek
      { snortExists := false
        snortContent := []
        zeekExists := true
        zeekContent :=
          "#fields ts\tid.orig_h\tid.resp_h\n0\t1.0\t10.0.0.5\t10.0.0.9\n1\t2.0\t1.2.3.4\t5.6.7.8\tx".data
        modelLoaded := true
        modelScores := fun _ => Rat.divInt 97 100 } = [] := by decide

end SanityChecks
